import Mathlib

set_option maxRecDepth 8000

/-!  A verification development for the TrAP repository's SQL safety and
pagination helpers (`trendsql/app/sql_safety.py`, `trendsql/app/pagination.py`,
and the `trendsql_kg` variants), shallowly embedded over `List Char`.
ASCII semantics are assumed for upper-casing, word characters and whitespace
classes, which agrees with the Python code on ASCII input. -/

def s2l (s : String) : List Char := s.data

/-- Python whitespace class (as used by `str.strip` and regex `\s`), ASCII range. -/
def pyIsSpace (c : Char) : Bool :=
  c = ' ' || c = '\t' || c = '\n' || c = '\r' || c = '\x0b' || c = '\x0c'

/-- Python regex word character class `\w`, ASCII range. -/
def isWordChar (c : Char) : Bool := c.isAlphanum || c = '_'

def lstripL (l : List Char) : List Char := l.dropWhile pyIsSpace

def rstripL (l : List Char) : List Char := (l.reverse.dropWhile pyIsSpace).reverse

/-- Python `str.strip()`. -/
def pyStrip (l : List Char) : List Char := rstripL (lstripL l)

/-- Python `str.upper()` (ASCII). -/
def pyUpper (l : List Char) : List Char := l.map Char.toUpper

def isPrefixL : List Char → List Char → Bool
  | [], _ => true
  | _ :: _, [] => false
  | p :: ps, c :: cs => p = c && isPrefixL ps cs

/-- Python `pat in s` substring test. -/
def containsSub (pat : List Char) : List Char → Bool
  | [] => isPrefixL pat []
  | c :: rest => isPrefixL pat (c :: rest) || containsSub pat rest

/-- Regex `\b` on the left of a literal word: the previous character (if any)
must not be a word character. -/
def boundaryBefore : Option Char → Bool
  | none => true
  | some c => !isWordChar c

/-- Regex `\b` on the right of a literal word: the next character (if any)
must not be a word character. -/
def boundaryAfter : List Char → Bool
  | [] => true
  | c :: _ => !isWordChar c

/-- The word `kw` matches at the current position of `s`, with `\b` on both
sides; `prev` is the character just before the current position. -/
def matchKwAt (prev : Option Char) (s kw : List Char) : Bool :=
  boundaryBefore prev && isPrefixL kw s && boundaryAfter (s.drop kw.length)

/-- `re.search` for an alternation of `\b`-delimited literal words:
leftmost matching position wins, and at a position the first alternative in
`kws` that matches wins (Python's ordered alternation). -/
def searchKw (kws : List (List Char)) : Option Char → List Char → Option (List Char)
  | _, [] => none
  | prev, c :: rest =>
    match kws.find? (fun kw => matchKwAt prev (c :: rest) kw) with
    | some kw => some kw
    | none => searchKw kws (some c) rest

def writeKws : List (List Char) := [s2l "SELECT", s2l "INSERT", s2l "UPDATE", s2l "DELETE"]

/-- The `.*\b(SELECT|INSERT|UPDATE|DELETE)\b` tail of the third dangerous
pattern: a write keyword further on, with no newline in between (`.` does not
match a newline without `re.DOTALL`). -/
def searchWriteOnLine : Option Char → List Char → Bool
  | _, [] => false
  | prev, c :: rest =>
    if writeKws.any (fun kw => matchKwAt prev (c :: rest) kw) then true
    else if c = '\n' then false
    else searchWriteOnLine (some c) rest

def unionKws : List (List Char) := [s2l "UNION ALL", s2l "UNION"]

/-- `re.search(r"\b(UNION ALL|UNION)\b.*\b(SELECT|INSERT|UPDATE|DELETE)\b", ·)`,
returning group 1. -/
def searchUnionSelect : Option Char → List Char → Option (List Char)
  | _, [] => none
  | prev, c :: rest =>
    match unionKws.find? (fun kw =>
      matchKwAt prev (c :: rest) kw &&
        searchWriteOnLine kw.getLast? ((c :: rest).drop kw.length)) with
    | some kw => some kw
    | none => searchUnionSelect (some c) rest

/-- Alternatives of the first dangerous pattern of `ensure_safe_select`
(`sql_safety.py`, trendsql variant). -/
def dangerousKws1 : List (List Char) :=
  [s2l "INSERT", s2l "UPDATE", s2l "DELETE", s2l "DROP", s2l "TRUNCATE",
   s2l "ALTER", s2l "CREATE", s2l "REINDEX", s2l "VACUUM", s2l "GRANT", s2l "REVOKE"]

/-- Alternatives of the second dangerous pattern of `ensure_safe_select`. -/
def dangerousKws2 : List (List Char) :=
  [s2l "EXEC", s2l "EXECUTE", s2l "EXECUTE IMMEDIATE"]

def forbiddenMsg (k : List Char) : List Char :=
  s2l "SQL contains forbidden keyword: " ++ k

def allowedStartKws : List (List Char) := [s2l "WITH", s2l "SELECT", s2l "EXPLAIN"]

/-- `re.match(r"^(WITH|SELECT|EXPLAIN)\b", u)`. -/
def startsAllowed (u : List Char) : Bool :=
  allowedStartKws.any (fun kw => matchKwAt none u kw)

/-- `ensure_safe_select` from `src/trendsql/app/sql_safety.py`: the regex
checks run in source order on `sql.strip().upper()`, then the leading-keyword
check, then the semicolon check and the comment-marker check on the raw text. -/
def ensure_safe_select (sql : List Char) : Bool × Option (List Char) :=
  let sqlU := pyUpper (pyStrip sql)
  match searchKw dangerousKws1 none sqlU with
  | some k => (false, some (forbiddenMsg k))
  | none =>
    match searchKw dangerousKws2 none sqlU with
    | some k => (false, some (forbiddenMsg k))
    | none =>
      match searchUnionSelect none sqlU with
      | some k => (false, some (forbiddenMsg k))
      | none =>
        if !startsAllowed sqlU then
          (false, some (s2l "SQL must start with SELECT, WITH, or EXPLAIN"))
        else if containsSub (s2l ";") sql then
          (false, some (s2l "Multiple statements not allowed (semicolon detected)"))
        else if containsSub (s2l "--") sql || containsSub (s2l "/*") sql then
          (false, some (s2l "Comments not allowed in SQL"))
        else (true, none)

/-- `re.sub(r"--.*$", "", sql, flags=re.MULTILINE)` as a left-to-right scan:
on seeing `--`, drop everything up to (but not including) the next newline.
The `Bool` state records whether we are inside a line comment. -/
def rlcAux : Bool → List Char → List Char
  | _, [] => []
  | true, c :: rest => if c = '\n' then c :: rlcAux false rest else rlcAux true rest
  | false, '-' :: '-' :: rest => rlcAux true rest
  | false, c :: rest => c :: rlcAux false rest

def removeLineComments (l : List Char) : List Char := rlcAux false l

def hasBlockClose : List Char → Bool
  | '*' :: '/' :: _ => true
  | _ :: rest => hasBlockClose rest
  | [] => false

/-- `re.sub(r"/\*.*?\*/", "", sql, flags=re.DOTALL)` as a scan: a `/*` with a
later `*/` opens a comment that ends at the first `*/` (non-greedy); a `/*`
with no closing `*/` anywhere after it is left in place (the regex cannot
complete a match there, nor anywhere later). -/
def rbcAux : Bool → List Char → List Char
  | _, [] => []
  | true, '*' :: '/' :: rest => rbcAux false rest
  | true, _ :: rest => rbcAux true rest
  | false, '/' :: '*' :: rest =>
    if hasBlockClose rest then rbcAux true rest else '/' :: '*' :: rbcAux false rest
  | false, c :: rest => c :: rbcAux false rest

def removeBlockComments (l : List Char) : List Char := rbcAux false l

/-- `re.sub(r"\s+", " ", sql)`: each maximal whitespace run becomes one space. -/
def collapseWs : List Char → List Char
  | [] => []
  | [c] => if pyIsSpace c then [' '] else [c]
  | c :: d :: rest =>
    if pyIsSpace c && pyIsSpace d then collapseWs (d :: rest)
    else (if pyIsSpace c then ' ' else c) :: collapseWs (d :: rest)

/-- `sanitize_sql` from `src/trendsql/app/sql_safety.py`: strip `--` line
comments, strip `/*...*/` block comments, collapse whitespace, trim. -/
def sanitize_sql (l : List Char) : List Char :=
  pyStrip (collapseWs (removeBlockComments (removeLineComments l)))

def natDigitsAux : Nat → Nat → List Char → List Char
  | 0, _, acc => acc
  | fuel + 1, n, acc =>
    if n < 10 then Nat.digitChar n :: acc
    else natDigitsAux fuel (n / 10) (Nat.digitChar (n % 10) :: acc)

/-- Decimal digits of a natural number, most significant first. -/
def natDigits (n : Nat) : List Char := natDigitsAux (n + 1) n []

/-- Python `str(i)` for an `int`. -/
def intStr (i : Int) : List Char :=
  if i < 0 then '-' :: natDigits i.natAbs else natDigits i.natAbs

def rfindSubAux (pat : List Char) : List Char → Nat → Option Nat
  | [], i => if isPrefixL pat [] then some i else none
  | c :: rest, i =>
    match rfindSubAux pat rest (i + 1) with
    | some j => some j
    | none => if isPrefixL pat (c :: rest) then some i else none

/-- Python `s.rfind(pat)`: index of the last occurrence, if any. -/
def rfindSub (pat s : List Char) : Option Nat := rfindSubAux pat s 0

def findCharFromAux (ch : Char) : List Char → Nat → Option Nat
  | [], _ => none
  | c :: rest, i => if c = ch then some i else findCharFromAux ch rest (i + 1)

/-- Python `s.find(ch, start)`: index of the first occurrence at or after
`start`, if any. -/
def findCharFrom (ch : Char) (s : List Char) (start : Nat) : Option Nat :=
  findCharFromAux ch (s.drop start) start

/-- `add_pagination` from `src/trendsql/app/pagination.py`: find the last
occurrence of `LIMIT` in the upper-cased text, cut from there to the next `;`
(or the end), right-strip, and append the new `LIMIT`/`OFFSET` clause. -/
def add_pagination (sql : List Char) (page : Int := 1) (page_size : Int := 50) :
    List Char :=
  let sqlU := pyUpper sql
  let sql2 :=
    match rfindSub (s2l "LIMIT") sqlU with
    | some i =>
      let endPos :=
        match findCharFrom ';' sql i with
        | some e => e
        | none => sql.length
      rstripL (sql.take i) ++ sql.drop endPos
    | none => sql
  let offset := (page - 1) * page_size
  rstripL sql2 ++ s2l " LIMIT " ++ intStr page_size ++ s2l " OFFSET " ++ intStr offset

/-- `validate_pagination_params` from `src/trendsql/app/pagination.py`. -/
def validate_pagination_params (page page_size : Int) : Int × Int :=
  (max 1 page, max 1 (min 1000 page_size))

/-- `PaginationHelper.validate_pagination_params` from
`src/trendsql_kg/app/pagination.py` (`max_page_size` defaults to 1000). -/
def kg_validate_pagination_params (page page_size : Int)
    (max_page_size : Int := 1000) : Int × Int :=
  let p := if page < 1 then 1 else page
  let ps :=
    if page_size < 1 then 50
    else if page_size > max_page_size then max_page_size
    else page_size
  (p, ps)

/-- Modelled from the spec: the tokenizer's string-literal awareness (spec
section 4.2, single-quoted literals with `''` escape doubling), specialised to
the question "does a `;` occur outside every single-quoted string literal?".
The repository's trendsql checker has no tokenizer, so this literal-aware
multiple-statement rule exists only in the spec; it is used here as the
comparison point for the semicolon rule the code actually implements.
The `Bool` state records whether the scan is inside a literal. -/
def semiOutsideLiteral : Bool → List Char → Bool
  | _, [] => false
  | false, ';' :: _ => true
  | false, '\'' :: rest => semiOutsideLiteral true rest
  | false, _ :: rest => semiOutsideLiteral false rest
  | true, '\'' :: '\'' :: rest => semiOutsideLiteral true rest
  | true, '\'' :: rest => semiOutsideLiteral false rest
  | true, _ :: rest => semiOutsideLiteral true rest

/-- `kw` occurs in `s` as a whole word: some split `s = pre ++ kw ++ post`
where the character adjacent to `kw` on either side (if any) is not a word
character — i.e. a `\b`-delimited occurrence, the spec's "keyword token". -/
def OccursBounded (kw s : List Char) : Prop :=
  ∃ pre post, s = pre ++ kw ++ post ∧
    boundaryBefore pre.getLast? = true ∧ boundaryAfter post = true

/-- Whitespace shape produced by `collapseWs`: every whitespace character is a
plain space and no two adjacent characters are both whitespace. -/
def goodWs (l : List Char) : Prop :=
  (∀ c ∈ l, pyIsSpace c = true → c = ' ') ∧
  l.Chain' (fun a b => ¬(pyIsSpace a = true ∧ pyIsSpace b = true))

-- Concrete behavioural checks of the embedding against the Python semantics.
example : ensure_safe_select (s2l "SELECT * FROM topics WHERE region = 'IN'") = (true, none) := by decide
example : ensure_safe_select (s2l "DROP TABLE topics") =
    (false, some (s2l "SQL contains forbidden keyword: DROP")) := by decide
example : ensure_safe_select (s2l "SELECT COMMIT FROM t") = (true, none) := by decide
example : ensure_safe_select (s2l "SELECT 'DROP TABLE' AS note") =
    (false, some (s2l "SQL contains forbidden keyword: DROP")) := by decide
example : ensure_safe_select (s2l "SELECT * FROM topics; DROP TABLE topics;") =
    (false, some (s2l "SQL contains forbidden keyword: DROP")) := by decide
example : ensure_safe_select (s2l "SELECT ';' AS c") =
    (false, some (s2l "Multiple statements not allowed (semicolon detected)")) := by decide
example : ensure_safe_select (s2l "DELETE FROM t") =
    (false, some (s2l "SQL contains forbidden keyword: DELETE")) := by decide
example : ensure_safe_select (s2l "PRAGMA x") =
    (false, some (s2l "SQL must start with SELECT, WITH, or EXPLAIN")) := by decide
example : sanitize_sql (s2l "SELECT * FROM t WHERE name = '--not a comment'") =
    s2l "SELECT * FROM t WHERE name = '" := by decide
example : sanitize_sql (s2l "-/**/-") = s2l "--" := by decide
example : sanitize_sql (s2l "--") = s2l "" := by decide
example : sanitize_sql (s2l "SELECT * FROM topics -- ; DROP TABLE topics") =
    s2l "SELECT * FROM topics" := by decide
example : ensure_safe_select (s2l "SELECT a UNION SELECT b") =
    (false, some (s2l "SQL contains forbidden keyword: UNION")) := by decide
example : ensure_safe_select (s2l "SELECT a UNION ALL SELECT b") =
    (false, some (s2l "SQL contains forbidden keyword: UNION ALL")) := by decide
example : add_pagination (s2l "SELECT * FROM t") 3 25 =
    s2l "SELECT * FROM t LIMIT 25 OFFSET 50" := by decide
example : add_pagination (add_pagination (s2l "SELECT * FROM t") 1 10) 2 20 =
    s2l "SELECT * FROM t LIMIT 20 OFFSET 20" := by decide
example : add_pagination (s2l "SELECT * FROM (SELECT a FROM t LIMIT 5) sub") 2 20 =
    s2l "SELECT * FROM (SELECT a FROM t LIMIT 20 OFFSET 20" := by decide
example : semiOutsideLiteral false (s2l "SELECT ';' AS c") = false := by decide
example : semiOutsideLiteral false (s2l "SELECT 1; DROP TABLE t") = true := by decide
example : validate_pagination_params 0 5000 = (1, 1000) := by decide
example : kg_validate_pagination_params 0 0 1000 = (1, 50) := by decide

lemma isPrefixL_append (k t : List Char) : isPrefixL k (k ++ t) = true := by
  induction k with
  | nil => rfl
  | cons a as ih => simp [isPrefixL, ih]

lemma searchKw_mem (kws : List (List Char)) :
    ∀ (s : List Char) (prev : Option Char) (k : List Char),
      searchKw kws prev s = some k → k ∈ kws := by
  intro s
  induction s with
  | nil => intro prev k h; simp [searchKw] at h
  | cons c rest ih =>
    intro prev k h
    simp only [searchKw] at h
    cases hf : kws.find? (fun kw => matchKwAt prev (c :: rest) kw) with
    | some k' =>
      rw [hf] at h
      obtain rfl := Option.some.inj h
      exact List.mem_of_find?_eq_some hf
    | none =>
      rw [hf] at h
      exact ih (some c) k h

lemma searchKw_complete (kws : List (List Char)) (kw : List Char) (hmem : kw ∈ kws)
    (hne : kw ≠ []) :
    ∀ (pre : List Char) (prev : Option Char) (post : List Char),
      (pre = [] → boundaryBefore prev = true) →
      (∀ p, pre.getLast? = some p → isWordChar p = false) →
      boundaryAfter post = true →
      searchKw kws prev (pre ++ kw ++ post) ≠ none := by
  intro pre
  induction pre with
  | nil =>
    intro prev post hb _ ha
    obtain ⟨k0, ktl, rfl⟩ : ∃ k0 ktl, kw = k0 :: ktl := by
      cases kw with
      | nil => exact absurd rfl hne
      | cons a b => exact ⟨a, b, rfl⟩
    rw [List.nil_append, List.cons_append]
    have hmatch : matchKwAt prev (k0 :: (ktl ++ post)) (k0 :: ktl) = true := by
      have h1 : isPrefixL (k0 :: ktl) (k0 :: (ktl ++ post)) = true :=
        isPrefixL_append (k0 :: ktl) post
      have h2 : List.drop (k0 :: ktl).length (k0 :: (ktl ++ post)) = post := by
        simp only [List.length_cons, List.drop_succ_cons]
        exact List.drop_left ktl post
      unfold matchKwAt
      rw [hb rfl, h1, h2, ha]
      rfl
    have hsome : (List.find? (fun kw => matchKwAt prev (k0 :: (ktl ++ post)) kw) kws).isSome :=
      List.find?_isSome.mpr ⟨k0 :: ktl, hmem, hmatch⟩
    simp only [searchKw]
    split
    · simp
    · rename_i hf
      rw [hf] at hsome
      simp at hsome
  | cons p0 pre' ih =>
    intro prev post hb hlast ha
    simp only [List.cons_append]
    simp only [searchKw]
    split
    · simp
    · apply ih (some p0) post
      · intro hpre'
        subst hpre'
        have hp := hlast p0 (by simp)
        simp [boundaryBefore, hp]
      · intro q hq
        apply hlast
        cases pre' with
        | nil => simp at hq
        | cons a b => rw [List.getLast?_cons_cons]; exact hq
      · exact ha

lemma ensure_eq_of_kw1 (s k : List Char)
    (h : searchKw dangerousKws1 none (pyUpper (pyStrip s)) = some k) :
    ensure_safe_select s = (false, some (forbiddenMsg k)) := by
  simp only [ensure_safe_select]
  rw [h]

lemma ensure_eq_of_kw2 (s k : List Char)
    (h1 : searchKw dangerousKws1 none (pyUpper (pyStrip s)) = none)
    (h2 : searchKw dangerousKws2 none (pyUpper (pyStrip s)) = some k) :
    ensure_safe_select s = (false, some (forbiddenMsg k)) := by
  simp only [ensure_safe_select]
  rw [h1, h2]

/-- Claim C1 (amended): for every string whose stripped upper-cased text has a
`\b`-bounded occurrence of one of the keywords the code actually checks
(`dangerousKws1` = INSERT, UPDATE, DELETE, DROP, TRUNCATE, ALTER, CREATE,
REINDEX, VACUUM, GRANT, REVOKE, or `dangerousKws2` = EXEC, EXECUTE),
`ensure_safe_select` returns `safe = false` with a reason naming one of those
keywords.  (The spec's further keywords BEGIN, COMMIT, ROLLBACK, CALL, DO,
COPY, ANALYZE are not checked by this code — see the counterexample — and
matching is position-based on the raw text, not literal-aware.) -/
theorem claim_C1_amended (s : List Char)
    (h : ∃ kw ∈ dangerousKws1 ++ dangerousKws2, OccursBounded kw (pyUpper (pyStrip s))) :
    (ensure_safe_select s).1 = false ∧
    ∃ kw ∈ dangerousKws1 ++ dangerousKws2,
      (ensure_safe_select s).2 = some (forbiddenMsg kw) := by
  obtain ⟨kw, hkmem, pre, post, hsplit, hbb, hba⟩ := h
  have hallne : ∀ k ∈ dangerousKws1 ++ dangerousKws2, k ≠ [] := by decide
  have hne : kw ≠ [] := hallne kw hkmem
  have hlast : ∀ p, pre.getLast? = some p → isWordChar p = false := by
    intro p hp
    rw [hp] at hbb
    simpa [boundaryBefore] using hbb
  have hbnil : pre = [] → boundaryBefore (none : Option Char) = true := fun _ => rfl
  cases h1 : searchKw dangerousKws1 none (pyUpper (pyStrip s)) with
  | some k =>
    have he := ensure_eq_of_kw1 s k h1
    rw [he]
    exact ⟨rfl, k, List.mem_append_left _ (searchKw_mem _ _ _ _ h1), rfl⟩
  | none =>
    have hk2 : kw ∈ dangerousKws2 := by
      rcases List.mem_append.mp hkmem with hmem1 | hmem2
      · exfalso
        have hc := searchKw_complete dangerousKws1 kw hmem1 hne pre none post hbnil hlast hba
        rw [← hsplit] at hc
        exact hc h1
      · exact hmem2
    have hc2 := searchKw_complete dangerousKws2 kw hk2 hne pre none post hbnil hlast hba
    rw [← hsplit] at hc2
    cases h2 : searchKw dangerousKws2 none (pyUpper (pyStrip s)) with
    | none => exact absurd h2 hc2
    | some k2 =>
      have he := ensure_eq_of_kw2 s k2 h1 h2
      rw [he]
      exact ⟨rfl, k2, List.mem_append_right _ (searchKw_mem _ _ _ _ h2), rfl⟩

/-- Claim C1 counterexample: `SELECT COMMIT FROM t` contains the keyword
COMMIT from the spec's `deniedKeywords` set, as a whole word outside any
string literal, yet `ensure_safe_select` accepts it: the code's deny list
omits COMMIT (and BEGIN, ROLLBACK, CALL, DO, COPY). -/
theorem claim_C1_counterexample :
    ensure_safe_select (s2l "SELECT COMMIT FROM t") = (true, none) ∧
    OccursBounded (s2l "COMMIT") (pyUpper (pyStrip (s2l "SELECT COMMIT FROM t"))) := by
  constructor
  · decide
  · exact ⟨s2l "SELECT ", s2l " FROM T", by decide, by decide, by decide⟩

/-- Claim C1 witness: `GRANT ALL` contains the denied keyword GRANT and is
rejected with a reason naming it. -/
theorem claim_C1_witness :
    (ensure_safe_select (s2l "GRANT ALL")).1 = false ∧
    ∃ kw ∈ dangerousKws1 ++ dangerousKws2,
      (ensure_safe_select (s2l "GRANT ALL")).2 = some (forbiddenMsg kw) :=
  claim_C1_amended _ ⟨s2l "GRANT", by decide, [], s2l " ALL", by decide, by decide, by decide⟩

/-- Claim C2 (code_bug): the spec requires a denied keyword inside a quoted
string literal to be ACCEPTED, but the code's regex search is not
literal-aware: `SELECT 'DROP TABLE' AS note` is rejected, naming DROP. -/
theorem claim_C2_code_eval :
    ensure_safe_select (s2l "SELECT 'DROP TABLE' AS note") =
      (false, some (s2l "SQL contains forbidden keyword: DROP")) := by decide

/-- Claim C3 (code_bug): the spec requires `sanitize` to leave string-literal
contents alone, but the code's regex comment stripping is not quote-aware:
it truncates `'--not a comment'` at the `--`, and `ensure_safe_select`
rejects the raw input because of the `--` substring. -/
theorem claim_C3_code_eval :
    sanitize_sql (s2l "SELECT * FROM t WHERE name = '--not a comment'") =
      s2l "SELECT * FROM t WHERE name = '" ∧
    ensure_safe_select (s2l "SELECT * FROM t WHERE name = '--not a comment'") =
      (false, some (s2l "Comments not allowed in SQL")) :=
  ⟨by decide, by decide⟩

/-- Claim C5 (amended): the code short-circuits in ITS OWN rule order, which
puts the denied-keyword regexes before the multiple-statement check: whenever
the first dangerous pattern matches, its keyword reason is returned, whatever
else (e.g. a semicolon) the input contains. -/
theorem claim_C5_amended (s k : List Char)
    (h : searchKw dangerousKws1 none (pyUpper (pyStrip s)) = some k) :
    ensure_safe_select s = (false, some (forbiddenMsg k)) :=
  ensure_eq_of_kw1 s k h

/-- Claim C5 counterexample: on `SELECT * FROM topics; DROP TABLE topics;`
the reason names DROP; it is not the multiple-statements reason the claim
(and the spec's rule order) predicts. -/
theorem claim_C5_counterexample :
    ensure_safe_select (s2l "SELECT * FROM topics; DROP TABLE topics;") =
      (false, some (s2l "SQL contains forbidden keyword: DROP")) ∧
    s2l "SQL contains forbidden keyword: DROP" ≠
      s2l "Multiple statements not allowed (semicolon detected)" :=
  ⟨by decide, by decide⟩

/-- Claim C5 witness: another input with both a semicolon and a denied
keyword; the keyword rule wins. -/
theorem claim_C5_witness :
    ensure_safe_select (s2l "SELECT 1; DELETE FROM t") =
      (false, some (forbiddenMsg (s2l "DELETE"))) :=
  claim_C5_amended _ _ (by decide)

/-- Claim C6 (code_bug): `add_pagination` cuts from the LAST occurrence of
`LIMIT` anywhere in the text (Python `rfind`), so a LIMIT that ends a
parenthesized subquery is destroyed together with the closing parenthesis,
against the spec's depth-0 requirement.  Double application on a query whose
last LIMIT is the trailing clause does replace rather than stack. -/
theorem claim_C6_code_eval :
    add_pagination (s2l "SELECT * FROM (SELECT a FROM t LIMIT 5) sub") 2 20 =
      s2l "SELECT * FROM (SELECT a FROM t LIMIT 20 OFFSET 20" ∧
    add_pagination (add_pagination (s2l "SELECT * FROM t") 1 10) 2 20 =
      s2l "SELECT * FROM t LIMIT 20 OFFSET 20" :=
  ⟨by decide, by decide⟩

lemma forbiddenMsg_ne_nil (k : List Char) : forbiddenMsg k ≠ [] := by
  intro h
  have := congrArg List.length h
  simp [forbiddenMsg, s2l] at this

/-- Claim C8 (confirmed): every verdict of `ensure_safe_select` satisfies the
SafetyVerdict invariant — an accepting verdict carries no reason, a rejecting
verdict carries a non-empty reason — and the function is total (the embedding
returns a value on every input; no exception path exists in the code). -/
theorem claim_C8_verdict_invariant (s : List Char) :
    ((ensure_safe_select s).1 = true ∧ (ensure_safe_select s).2 = none) ∨
    ((ensure_safe_select s).1 = false ∧
      ∃ r, (ensure_safe_select s).2 = some r ∧ r ≠ []) := by
  have h1 : s2l "SQL must start with SELECT, WITH, or EXPLAIN" ≠ [] := by decide
  have h2 : s2l "Multiple statements not allowed (semicolon detected)" ≠ [] := by decide
  have h3 : s2l "Comments not allowed in SQL" ≠ [] := by decide
  simp only [ensure_safe_select]
  repeat' split
  all_goals simp [forbiddenMsg_ne_nil, h1, h2, h3]

/-- Claim C4 (amended): whenever the stripped upper-cased text does not begin
with SELECT, WITH or EXPLAIN at a word boundary, `ensure_safe_select` returns
`safe = false`; the reason is the "must start with" message exactly when none
of the three dangerous-keyword regexes matched first (otherwise the earlier
keyword rule's reason wins, since the code runs the keyword regexes before the
leading-keyword check). -/
theorem claim_C4_amended (s : List Char)
    (h : startsAllowed (pyUpper (pyStrip s)) = false) :
    (ensure_safe_select s).1 = false ∧
    (searchKw dangerousKws1 none (pyUpper (pyStrip s)) = none →
     searchKw dangerousKws2 none (pyUpper (pyStrip s)) = none →
     searchUnionSelect none (pyUpper (pyStrip s)) = none →
     (ensure_safe_select s).2 =
       some (s2l "SQL must start with SELECT, WITH, or EXPLAIN")) := by
  constructor
  · simp only [ensure_safe_select]
    repeat' split
    all_goals first
      | rfl
      | simp_all
  · intro h1 h2 h3
    simp only [ensure_safe_select]
    rw [h1, h2, h3, h]
    simp

/-- Claim C4 counterexample: `DELETE FROM t` has leading keyword DELETE, which
is not in the allowed set, but the reason is the forbidden-keyword message
naming DELETE, not the "must start with SELECT, WITH, or EXPLAIN" reason the
claim asserts. -/
theorem claim_C4_counterexample :
    ensure_safe_select (s2l "DELETE FROM t") =
      (false, some (s2l "SQL contains forbidden keyword: DELETE")) ∧
    s2l "SQL contains forbidden keyword: DELETE" ≠
      s2l "SQL must start with SELECT, WITH, or EXPLAIN" :=
  ⟨by decide, by decide⟩

/-- Claim C4 witness: `PRAGMA x` (no dangerous keyword) is rejected with the
"must start with" reason. -/
theorem claim_C4_witness :
    (ensure_safe_select (s2l "PRAGMA x")).1 = false ∧
    (ensure_safe_select (s2l "PRAGMA x")).2 =
      some (s2l "SQL must start with SELECT, WITH, or EXPLAIN") :=
  ⟨(claim_C4_amended _ (by decide)).1,
   (claim_C4_amended _ (by decide)).2 (by decide) (by decide) (by decide)⟩

/-- Claim C7 (confirmed): both `validate_pagination_params` implementations
never reject or raise (they are total functions); the returned pair always
satisfies `page ≥ 1` and `page_size ∈ [1, 1000]`, and in-range inputs pass
through unchanged. -/
theorem claim_C7_validate_clamps (page page_size : Int) :
    1 ≤ (validate_pagination_params page page_size).1 ∧
    1 ≤ (validate_pagination_params page page_size).2 ∧
    (validate_pagination_params page page_size).2 ≤ 1000 ∧
    1 ≤ (kg_validate_pagination_params page page_size 1000).1 ∧
    1 ≤ (kg_validate_pagination_params page page_size 1000).2 ∧
    (kg_validate_pagination_params page page_size 1000).2 ≤ 1000 ∧
    (1 ≤ page → 1 ≤ page_size → page_size ≤ 1000 →
      validate_pagination_params page page_size = (page, page_size) ∧
      kg_validate_pagination_params page page_size 1000 = (page, page_size)) := by
  unfold validate_pagination_params kg_validate_pagination_params
  refine ⟨by omega, by omega, by omega, ?_, ?_, ?_, ?_⟩
  · simp only []
    split <;> omega
  · simp only []
    split <;> [omega; split <;> omega]
  · simp only []
    split <;> [omega; split <;> omega]
  · intro h1 h2 h3
    constructor
    · simp only [Prod.mk.injEq]
      omega
    · simp only [Prod.mk.injEq]
      constructor
      · split <;> omega
      · split <;> [omega; split <;> omega]

/-- Claim C7 witness: an in-range pair passes through unchanged in both
implementations. -/
theorem claim_C7_witness :
    validate_pagination_params 2 100 = (2, 100) ∧
    kg_validate_pagination_params 2 100 1000 = (2, 100) :=
  (claim_C7_validate_clamps 2 100).2.2.2.2.2.2 (by decide) (by decide) (by decide)

lemma semiOutsideLiteral_contains :
    ∀ (b : Bool) (l : List Char), semiOutsideLiteral b l = true →
      containsSub (s2l ";") l = true := by
  intro b l
  induction b, l using semiOutsideLiteral.induct
  all_goals intro h
  all_goals simp only [semiOutsideLiteral] at h
  all_goals simp_all [containsSub, isPrefixL, s2l]

/-- Claim C10 (amended): `ensure_safe_select` returns `safe = false` for every
input containing `;` anywhere — in particular for everything the spec's
literal-aware multiple-statement rule would reject, and also for
`SELECT ';' AS c`, whose semicolon is inside a string literal (so the code is
strictly stricter than the literal-aware rule); the semicolon reason is
produced when the earlier keyword and leading-keyword rules pass, as in that
example, but an input that also trips an earlier rule gets that rule's reason
instead (see the counterexample). -/
theorem claim_C10_amended :
    (∀ s, containsSub (s2l ";") s = true → (ensure_safe_select s).1 = false) ∧
    (∀ s, semiOutsideLiteral false s = true → (ensure_safe_select s).1 = false) ∧
    ensure_safe_select (s2l "SELECT ';' AS c") =
      (false, some (s2l "Multiple statements not allowed (semicolon detected)")) ∧
    semiOutsideLiteral false (s2l "SELECT ';' AS c") = false := by
  have hmain : ∀ s, containsSub (s2l ";") s = true → (ensure_safe_select s).1 = false := by
    intro s hs
    simp only [ensure_safe_select]
    repeat' split
    all_goals rfl
  exact ⟨hmain, fun s hs => hmain s (semiOutsideLiteral_contains false s hs),
    by decide, by decide⟩

/-- Claim C10 counterexample: `DROP TABLE t;` contains a semicolon but its
reason is the forbidden-keyword message, not the semicolon message the claim
attaches to every semicolon rejection. -/
theorem claim_C10_counterexample :
    ensure_safe_select (s2l "DROP TABLE t;") =
      (false, some (s2l "SQL contains forbidden keyword: DROP")) ∧
    s2l "SQL contains forbidden keyword: DROP" ≠
      s2l "Multiple statements not allowed (semicolon detected)" :=
  ⟨by decide, by decide⟩

/-- Claim C10 witness: a two-statement input is rejected. -/
theorem claim_C10_witness :
    (ensure_safe_select (s2l "SELECT 1; SELECT 2")).1 = false :=
  claim_C10_amended.1 _ (by decide)

lemma rlc_noop : ∀ (b : Bool) (l : List Char), b = false →
    containsSub ['-', '-'] l = false → rlcAux b l = l := by
  intro b l
  induction b, l using rlcAux.induct
  all_goals intro hb hc
  all_goals first
    | rfl
    | simp_all [containsSub, isPrefixL, rlcAux]

lemma rbc_noop : ∀ (b : Bool) (l : List Char), b = false →
    containsSub ['/', '*'] l = false → rbcAux b l = l := by
  intro b l
  induction b, l using rbcAux.induct
  all_goals intro hb hc
  all_goals first
    | rfl
    | simp_all [containsSub, isPrefixL, rbcAux]

lemma collapseWs_head? : ∀ (l : List Char),
    (collapseWs l).head? = l.head?.map (fun c => if pyIsSpace c then ' ' else c) := by
  intro l
  induction l using collapseWs.induct with
  | case1 => rfl
  | case2 c h => simp [collapseWs, h]
  | case3 c h => simp [collapseWs, h]
  | case4 c d rest h ih =>
    simp only [collapseWs, if_pos h]
    rw [ih]
    simp only [Bool.and_eq_true] at h
    simp [h.1, h.2]
  | case5 c d rest h ih =>
    simp only [collapseWs, if_neg h]
    simp

lemma goodWs_collapseWs : ∀ (l : List Char), goodWs (collapseWs l) := by
  intro l
  induction l using collapseWs.induct with
  | case1 => exact ⟨by simp [collapseWs], by simp [collapseWs]⟩
  | case2 c h =>
    constructor
    · intro x hx _
      simp [collapseWs, h] at hx
      simp [hx]
    · simp [collapseWs, h]
  | case3 c h =>
    constructor
    · intro x hx hsp
      simp [collapseWs, h] at hx
      rw [hx] at hsp
      exact absurd hsp h
    · simp [collapseWs, h]
  | case4 c d rest h ih =>
    simpa only [collapseWs, if_pos h] using ih
  | case5 c d rest h ih =>
    have hhd := collapseWs_head? (d :: rest)
    constructor
    · intro x hx hsp
      simp only [collapseWs, if_neg h] at hx
      simp at hx
      rcases hx with hx | hx
      · subst hx
        by_cases hc : pyIsSpace c = true
        · simp [hc]
        · rw [if_neg hc] at hsp
          exact absurd hsp hc
      · exact ih.1 x hx hsp
    · simp only [collapseWs, if_neg h]
      apply List.chain'_cons'.mpr
      refine ⟨?_, ih.2⟩
      intro y hy
      rintro ⟨hs0, hsy⟩
      rw [hhd] at hy
      simp at hy
      by_cases hd : pyIsSpace d = true
      · by_cases hc : pyIsSpace c = true
        · exact h (by simp [hc, hd])
        · rw [if_neg hc] at hs0
          exact absurd hs0 hc
      · rw [if_neg hd] at hy
        rw [← hy] at hsy
        exact absurd hsy hd

lemma collapseWs_noop : ∀ (l : List Char), goodWs l → collapseWs l = l := by
  intro l
  induction l using collapseWs.induct with
  | case1 => intro _; rfl
  | case2 c h =>
    rintro ⟨hmem, _⟩
    have hc := hmem c (by simp) h
    simp [collapseWs, h, hc]
  | case3 c h => simp [collapseWs, h]
  | case4 c d rest h ih =>
    rintro ⟨_, hch⟩
    exfalso
    have := (List.chain'_cons.mp hch).1
    simp only [Bool.and_eq_true] at h
    exact this ⟨h.1, h.2⟩
  | case5 c d rest h ih =>
    rintro ⟨hmem, hch⟩
    have htail : goodWs (d :: rest) :=
      ⟨fun x hx => hmem x (by simp [hx]), hch.tail⟩
    have ht := ih htail
    by_cases hc : pyIsSpace c = true
    · have hc' := hmem c (by simp) hc
      have hd : pyIsSpace d = false := by
        by_cases hdd : pyIsSpace d = true
        · exact absurd (by simp [hc, hdd]) h
        · simpa using hdd
      simp [collapseWs, hc, hd, hc', ht]
    · simp [collapseWs, hc, ht]

lemma goodWs_within (l l' : List Char) (h : goodWs l) (hin : l' <:+: l) : goodWs l' :=
  ⟨fun c hc hsp => h.1 c (hin.subset hc) hsp, List.Chain'.infix h.2 hin⟩

lemma pyStrip_within (l : List Char) : pyStrip l <:+: l := by
  have h1 : lstripL l <:+ l := List.dropWhile_suffix _
  have h2 : rstripL (lstripL l) <+: lstripL l := by
    apply List.reverse_suffix.mp
    rw [rstripL, List.reverse_reverse]
    exact List.dropWhile_suffix _
  exact List.IsInfix.trans h2.isInfix h1.isInfix

lemma lstripL_head : ∀ (l : List Char) (c : Char),
    (lstripL l).head? = some c → pyIsSpace c = false := by
  intro l
  induction l with
  | nil => intro c hc; simp [lstripL] at hc
  | cons a rest ih =>
    intro c hc
    by_cases ha : pyIsSpace a = true
    · rw [lstripL, List.dropWhile_cons_of_pos ha] at hc
      exact ih c hc
    · rw [lstripL, List.dropWhile_cons_of_neg ha] at hc
      simp at hc
      rw [← hc]
      simpa using ha

lemma lstripL_noop (l : List Char)
    (h : ∀ c, l.head? = some c → pyIsSpace c = false) : lstripL l = l := by
  cases l with
  | nil => rfl
  | cons a rest =>
    have ha := h a rfl
    rw [lstripL, List.dropWhile_cons_of_neg (by simp [ha])]

lemma lstripL_idem (l : List Char) : lstripL (lstripL l) = lstripL l :=
  lstripL_noop _ (lstripL_head l)

lemma prefix_head? (t u : List Char) (h : t <+: u) (hne : t ≠ []) :
    u.head? = t.head? := by
  obtain ⟨r, rfl⟩ := h
  cases t with
  | nil => exact absurd rfl hne
  | cons a b => rfl

lemma pyStrip_idem (l : List Char) : pyStrip (pyStrip l) = pyStrip l := by
  have htu : rstripL (lstripL l) <+: lstripL l := by
    apply List.reverse_suffix.mp
    rw [rstripL, List.reverse_reverse]
    exact List.dropWhile_suffix _
  have h1 : lstripL (rstripL (lstripL l)) = rstripL (lstripL l) := by
    apply lstripL_noop
    intro c hc
    have hne : rstripL (lstripL l) ≠ [] := by
      intro h0
      rw [h0] at hc
      simp at hc
    have hhd := prefix_head? _ _ htu hne
    exact lstripL_head l c (by rw [← hhd] at hc; exact hc)
  have hrev : (rstripL (lstripL l)).reverse = lstripL (lstripL l).reverse := by
    simp [rstripL, lstripL]
  have h2 : rstripL (rstripL (lstripL l)) = rstripL (lstripL l) := by
    have hxi : List.dropWhile pyIsSpace (lstripL ((lstripL l).reverse)) =
        lstripL ((lstripL l).reverse) := lstripL_idem ((lstripL l).reverse)
    rw [rstripL, hrev, hxi, ← hrev, List.reverse_reverse]
  show rstripL (lstripL (rstripL (lstripL l))) = rstripL (lstripL l)
  rw [h1, h2]

/-- Claim C9 (amended): `sanitize_sql` is NOT idempotent in general (removing
a block comment can concatenate the surrounding text into a fresh `--` or
`/*` marker that a second pass would strip — see the counterexample); it IS
idempotent on every input whose sanitized form contains neither `--` nor
`/*`. -/
theorem claim_C9_amended (s : List Char)
    (h1 : containsSub (s2l "--") (sanitize_sql s) = false)
    (h2 : containsSub (s2l "/*") (sanitize_sql s) = false) :
    sanitize_sql (sanitize_sql s) = sanitize_sql s := by
  have hd : s2l "--" = ['-', '-'] := by decide
  have hb : s2l "/*" = ['/', '*'] := by decide
  rw [hd] at h1
  rw [hb] at h2
  have e1 : removeLineComments (sanitize_sql s) = sanitize_sql s :=
    rlc_noop false _ rfl h1
  have e2 : removeBlockComments (sanitize_sql s) = sanitize_sql s :=
    rbc_noop false _ rfl h2
  have step : sanitize_sql (sanitize_sql s) = pyStrip (collapseWs (sanitize_sql s)) := by
    show pyStrip (collapseWs (removeBlockComments (removeLineComments (sanitize_sql s)))) = _
    rw [e1, e2]
  rw [step]
  have hg : goodWs (sanitize_sql s) :=
    goodWs_within _ _
      (goodWs_collapseWs (removeBlockComments (removeLineComments s)))
      ( pyStrip_within (collapseWs (removeBlockComments (removeLineComments s))))
  rw [collapseWs_noop _ hg]
  exact pyStrip_idem (collapseWs (removeBlockComments (removeLineComments s)))

/-- Claim C9 counterexample: on the input dash, empty block comment, dash,
one pass of sanitize removes the block comment and glues the two dashes into
a fresh `--`, which a second pass then strips entirely (first pass yields
`--`, second pass yields the empty string). -/
theorem claim_C9_counterexample :
    sanitize_sql (sanitize_sql (s2l "-/**/-")) ≠ sanitize_sql (s2l "-/**/-") := by
  decide

/-- Claim C9 witness: a comment-free input whose sanitized form has no
marker; sanitize is idempotent there. -/
theorem claim_C9_witness :
    sanitize_sql (sanitize_sql (s2l "SELECT  1")) = sanitize_sql (s2l "SELECT  1") :=
  claim_C9_amended _ (by decide) (by decide)

/-- Claim C8 witness: the verdict invariant at a concrete accepted input. -/
theorem claim_C8_witness :
    ((ensure_safe_select (s2l "SELECT 1")).1 = true ∧
      (ensure_safe_select (s2l "SELECT 1")).2 = none) ∨
    ((ensure_safe_select (s2l "SELECT 1")).1 = false ∧
      ∃ r, (ensure_safe_select (s2l "SELECT 1")).2 = some r ∧ r ≠ []) :=
  claim_C8_verdict_invariant (s2l "SELECT 1")
